import Mathlib

/-!
Verification development for the tracer core of `src/src/core/qgstracer.cpp`:
graph construction from polylines (`makeGraph`), the spatial locator
(`point2vertex`, `point2edge`), the temporary splicer (`joinVertexToGraph`,
`pointInGraph`, `resetGraph`), the Dijkstra solver (`shortestPath`) and the
session orchestration (`QgsTracer::findShortestPath` and the configuration
setters).

Modelling conventions:
* C++ `double` coordinates and distances are modelled by `ℚ` (exact real
  arithmetic idealisation); the square root of the external geometry
  primitives is modelled by `sqrtQ`, which is exact on perfect rational
  squares.
* C++ `int` indices with the `-1` sentinel are modelled by `Int` where the
  sentinel is compared (solver input), and by `Option Nat` for the locator
  results (`none` = `-1`).
* `QVector`/`QList` are Lean lists; in-place element mutation is modelled by
  `List.set`, so the aliasing of `v1`/`v2` references when an edge is a loop
  is reproduced by sequential updates.
* `QSet<int> inactiveEdges` is modelled as a list in insertion order (within
  one query at most two edges are deactivated; the iteration order of the
  real hash set is unspecified, the insertion order is one faithful choice).
-/

unseal Rat.mul Rat.inv Rat.add Rat.sub Rat.ofScientific

namespace Tracer

/-- 2D point with rational coordinates, modelling the coordinates of
`QgsPoint` (z/m are ignored for topology per the spec's data model). -/
structure QgsPoint where
  x : ℚ
  y : ℚ
deriving DecidableEq, Repr

instance : Inhabited QgsPoint := ⟨⟨0, 0⟩⟩

/-- A polyline: the ordered coordinate sequence of a `QgsLineString`. -/
abbrev LineString := List QgsPoint

/-- Modelled from the spec: the builder's point deduplication is by "exact or
near-exact coordinate equality" (the equality of the external point type,
which compares coordinates with a small fixed tolerance). -/
def builderEps : ℚ := 1 / 100000000

/-- Modelled from the spec: near-exact coordinate equality used by the
external point type's comparison (and hence by the builder's hash lookup and
by the `v.pt == pt` test of `point2vertex`). -/
def pointNear (a b : QgsPoint) : Prop :=
  |a.x - b.x| ≤ builderEps ∧ |a.y - b.y| ≤ builderEps

instance (a b : QgsPoint) : Decidable (pointNear a b) := by
  unfold pointNear; infer_instance

lemma pointNear_refl (a : QgsPoint) : pointNear a a := by
  constructor <;> simp [builderEps]

/-- Default locator tolerance: the `epsilon = 1e-6` default argument of
`point2vertex` and `point2edge` in the source. -/
def epsilonDefault : ℚ := 1 / 1000000

/-- Graph vertex (`QgsTracerGraph::V`): location plus indices of adjacent
edges. -/
structure V where
  pt : QgsPoint
  edges : List Nat
deriving DecidableEq, Repr

instance : Inhabited V := ⟨⟨default, []⟩⟩

/-- Graph edge (`QgsTracerGraph::E`): the two endpoint vertex indices and the
full coordinate sequence including endpoints. -/
structure E where
  v1 : Nat
  v2 : Nat
  coords : LineString
deriving DecidableEq, Repr

instance : Inhabited E := ⟨⟨0, 0, []⟩⟩

/-- `E::otherVertex`: `v1 == v0 ? v2 : v1`. -/
def E.otherVertex (e : E) (v0 : Nat) : Nat :=
  if e.v1 = v0 then e.v2 else e.v1

/-- Greatest `k` with `k * k ≤ n` (a structural integer square root, so
concrete instances evaluate inside the kernel). -/
def natSqrt (n : Nat) : Nat :=
  ((List.range (n + 1)).filter (fun k => Nat.ble (k * k) n)).getLastD 0

/-- Modelled from the spec: square root of the external geometry primitives
(C++ `double` arithmetic). It is exact whenever the radicand is a perfect
rational square, which covers every concrete evaluation in this file. -/
def sqrtQ (q : ℚ) : ℚ := (natSqrt q.num.toNat : ℚ) / (natSqrt q.den : ℚ)

/-- Modelled from the spec: Euclidean distance between two points
(`QgsPoint::distance`). -/
def euclidDist (a b : QgsPoint) : ℚ :=
  sqrtQ ((a.x - b.x) ^ 2 + (a.y - b.y) ^ 2)

/-- Modelled from the spec: polyline length (`QgsLineString::length`), the sum
of the Euclidean lengths of its segments; an edge's weight is derived from it.
-/
def lineLength : LineString → ℚ
  | a :: b :: rest => euclidDist a b + lineLength (b :: rest)
  | _ => 0

/-- `E::weight`: the length of the edge's coordinate sequence. -/
def E.weight (e : E) : ℚ := lineLength e.coords

/-- The tracer graph (`QgsTracerGraph`): vertex sequence, edge sequence, the
set of temporarily deactivated edges and the count of temporarily joined
vertices. -/
structure QgsTracerGraph where
  v : List V
  e : List E
  inactiveEdges : List Nat
  joinedVertices : Nat
deriving DecidableEq, Repr

instance : Inhabited QgsTracerGraph := ⟨⟨[], [], [], 0⟩⟩

/-! ## Graph builder (`makeGraph`) -/

/-- Modelled from the spec: lookup in the builder's point-to-vertex hash
(`QHash<QgsPoint, int>` keyed by the external point type's near-exact
equality); returns the first matching key's vertex index. -/
def lookupPoint : List (QgsPoint × Nat) → QgsPoint → Option Nat
  | [], _ => none
  | (q, i) :: rest, p => if pointNear q p then some i else lookupPoint rest p

/-- Get the vertex for a point from the hash, or append a fresh vertex
(the two symmetric blocks of `makeGraph`). -/
def getOrAddVertex (g : QgsTracerGraph) (m : List (QgsPoint × Nat))
    (p : QgsPoint) : QgsTracerGraph × List (QgsPoint × Nat) × Nat :=
  match lookupPoint m p with
  | some i => (g, m, i)
  | none =>
      ({ g with v := g.v ++ [⟨p, []⟩] }, m ++ [(p, g.v.length)], g.v.length)

/-- Replace the vertex at index `i`, keeping its point and transforming its
adjacency list (models in-place mutation of `g.v[i].edges`); out-of-range
indices leave the graph unchanged. -/
def mapVertexEdges (g : QgsTracerGraph) (i : Nat) (f : List Nat → List Nat) :
    QgsTracerGraph :=
  { g with v := g.v.set i ⟨(g.v.getD i default).pt, f (g.v.getD i default).edges⟩ }

/-- One iteration of the `makeGraph` loop: vertices for the line's start and
end point, then the edge carrying the full coordinate sequence, linked into
both endpoint vertices' adjacency lists. -/
def makeGraphStep (acc : QgsTracerGraph × List (QgsPoint × Nat))
    (line : LineString) : QgsTracerGraph × List (QgsPoint × Nat) :=
  let p1 := line.headD default
  let p2 := line.getLastD default
  let r1 := getOrAddVertex acc.1 acc.2 p1
  let r2 := getOrAddVertex r1.1 r1.2.1 p2
  let eIdx := r2.1.e.length
  let g3 := { r2.1 with e := r2.1.e ++ [⟨r1.2.2, r2.2.2, line⟩] }
  let g4 := mapVertexEdges g3 r1.2.2 (fun l => l ++ [eIdx])
  (mapVertexEdges g4 r2.2.2 (fun l => l ++ [eIdx]), r2.2.1)

/-- `makeGraph`: builds the vertex/edge graph from a collection of polylines,
deduplicating coincident endpoints through the point hash. -/
def makeGraph (lines : List LineString) : QgsTracerGraph :=
  (lines.foldl makeGraphStep (⟨[], [], [], 0⟩, [])).1

/-! ## Spatial locator (`point2vertex`, `point2edge`) -/

/-- Linear scan of `point2vertex`: first vertex whose stored point equals the
query point (near-exact equality) or is within `epsilon` in both coordinates.
-/
def point2vertexAux (pt : QgsPoint) (eps : ℚ) : Nat → List V → Option Nat
  | _, [] => none
  | i, vv :: rest =>
      if pointNear vv.pt pt ∨ (|vv.pt.x - pt.x| < eps ∧ |vv.pt.y - pt.y| < eps)
      then some i else point2vertexAux pt eps (i + 1) rest

/-- `point2vertex`: index of a vertex matching the query point, or `none`
(the C++ `-1`). -/
def point2vertex (g : QgsTracerGraph) (pt : QgsPoint) (eps : ℚ) : Option Nat :=
  point2vertexAux pt eps 0 g.v

/-- Modelled from the spec: squared Euclidean distance from a point to the
segment `[a, b]` (the closest-point primitive used by
`QgsLineString::closestSegment`). -/
def sqDistToSegment (pt a b : QgsPoint) : ℚ :=
  let dx := b.x - a.x
  let dy := b.y - a.y
  let l2 := dx ^ 2 + dy ^ 2
  if l2 = 0 then (pt.x - a.x) ^ 2 + (pt.y - a.y) ^ 2
  else
    let t := ((pt.x - a.x) * dx + (pt.y - a.y) * dy) / l2
    let tc := max 0 (min 1 t)
    (pt.x - (a.x + tc * dx)) ^ 2 + (pt.y - (a.y + tc * dy)) ^ 2

/-- Scan the polyline's segments keeping the smallest squared distance and the
ordinal of the vertex immediately after which the closest point falls. -/
def closestSegmentAux (pt : QgsPoint) :
    QgsPoint → List QgsPoint → Nat → Option (ℚ × Nat) → Option (ℚ × Nat)
  | _, [], _, best => best
  | a, b :: rest, idx, best =>
      let d := sqDistToSegment pt a b
      let bnew :=
        match best with
        | none => some (d, idx + 1)
        | some (bd, bi) => if d < bd then some (d, idx + 1) else some (bd, bi)
      closestSegmentAux pt b rest (idx + 1) bnew

/-- Modelled from the spec: `QgsLineString::closestSegment` — the smallest
squared distance from the query point to the polyline together with the
insertion position (`vertexId.vertex`); `none` when the polyline has no
segment. -/
def closestSegment (coords : LineString) (pt : QgsPoint) : Option (ℚ × Nat) :=
  match coords with
  | c :: rest => closestSegmentAux pt c rest 0 none
  | [] => none

/-- Scan of `point2edge` over the edge sequence with running index, skipping
temporarily deactivated edges; an edge matches when the closest distance is
effectively zero — within `epsilon` — per the spec's locator contract. -/
def point2edgeAux (g : QgsTracerGraph) (pt : QgsPoint) (eps : ℚ) :
    Nat → List E → Option (Nat × Nat)
  | _, [] => none
  | i, ed :: rest =>
      if i ∈ g.inactiveEdges then point2edgeAux g pt eps (i + 1) rest
      else
        match closestSegment ed.coords pt with
        | some (d, va) =>
            if d < eps ^ 2 then some (i, va)
            else point2edgeAux g pt eps (i + 1) rest
        | none => point2edgeAux g pt eps (i + 1) rest

/-- `point2edge`: the first active edge on whose linework the point lies
(within `epsilon`), together with the vertex ordinal after which it falls. -/
def point2edge (g : QgsTracerGraph) (pt : QgsPoint) (eps : ℚ) :
    Option (Nat × Nat) :=
  point2edgeAux g pt eps 0 g.e

/-! ## Graph splicer (`joinVertexToGraph`, `pointInGraph`, `resetGraph`) -/

/-- `QList::replace(indexOf(a), b)`: replace the first occurrence of `a` by
`b`; unchanged when `a` does not occur. -/
def replaceFirst : List Nat → Nat → Nat → List Nat
  | [], _, _ => []
  | x :: xs, a, b => if x = a then b :: xs else x :: replaceFirst xs a b

/-- Modelled from the spec: `QgsLineString::splitAt` — split the coordinate
sequence at the insertion position into two runs sharing the split point as a
common endpoint. -/
def splitAt (coords : LineString) (pt : QgsPoint) (vertexAfter : Nat) :
    LineString × LineString :=
  (coords.take vertexAfter ++ [pt], pt :: coords.drop vertexAfter)

/-- `joinVertexToGraph`: locate the edge containing the point, split it into
two new edges around a new vertex, rewire the endpoint vertices' adjacency
lists and deactivate the original edge. Returns the updated graph and the new
vertex index (`none` models the C++ `-1`). -/
def joinVertexToGraph (g : QgsTracerGraph) (pt : QgsPoint) :
    QgsTracerGraph × Option Nat :=
  match point2edge g pt epsilonDefault with
  | none => (g, none)
  | some (eIdx, lineVertexAfter) =>
      let e := g.e.getD eIdx default
      let sp := splitAt e.coords pt lineVertexAfter
      let vIdx := g.v.length
      let e1Idx := g.e.length
      let e2Idx := e1Idx + 1
      let nv : V := ⟨pt, [e1Idx, e2Idx]⟩
      let e1 : E := ⟨e.v1, vIdx, sp.1⟩
      let e2 : E := ⟨vIdx, e.v2, sp.2⟩
      let g1 := mapVertexEdges g e.v1 (fun l => replaceFirst l eIdx e1Idx)
      let g2 := mapVertexEdges g1 e.v2 (fun l => replaceFirst l eIdx e2Idx)
      ({ g2 with
          inactiveEdges := g2.inactiveEdges ++ [eIdx],
          v := g2.v ++ [nv],
          e := g2.e ++ [e1, e2],
          joinedVertices := g2.joinedVertices + 1 }, some vIdx)

/-- `pointInGraph`: use an existing vertex if one matches, otherwise try to
splice the point into an edge. -/
def pointInGraph (g : QgsTracerGraph) (pt : QgsPoint) :
    QgsTracerGraph × Option Nat :=
  match point2vertex g pt epsilonDefault with
  | some v => (g, some v)
  | none => joinVertexToGraph g pt

/-- Restore one deactivated edge (the body of the `resetGraph` loop): skip it
when it lies beyond the truncated edge sequence, otherwise remove the
now-dangling references from both endpoint vertices' adjacency lists and
re-append the edge index. -/
def restoreEdge (g : QgsTracerGraph) (eIdx : Nat) : QgsTracerGraph :=
  if g.e.length ≤ eIdx then g
  else
    let e := g.e.getD eIdx default
    let g1 := mapVertexEdges g e.v1
      (fun l => (l.filter (fun x => x < g.e.length)) ++ [eIdx])
    mapVertexEdges g1 e.v2
      (fun l => (l.filter (fun x => x < g.e.length)) ++ [eIdx])

/-- `resetGraph`: truncate the vertex and edge sequences back to their
pre-splice lengths, restore every deactivated edge still within bounds into
its endpoints' adjacency lists and clear the inactive set. -/
def resetGraph (g : QgsTracerGraph) : QgsTracerGraph :=
  let g1 : QgsTracerGraph :=
    { g with
        v := g.v.take (g.v.length - g.joinedVertices),
        e := g.e.take (g.e.length - g.joinedVertices * 2),
        joinedVertices := 0 }
  let g2 := g.inactiveEdges.foldl restoreEdge g1
  { g2 with inactiveEdges := [] }

/-! ## Shortest-path solver (`shortestPath`) -/

/-- Tentative-distance comparison with `none` playing the role of the
"infinity" sentinel (`std::numeric_limits<double>::max()`): an infinite
left-hand side is never smaller, a finite value is smaller than infinity. -/
def dLt : Option ℚ → Option ℚ → Bool
  | none, _ => false
  | some _, none => true
  | some x, some y => decide (x < y)

/-- Pop the leftmost minimal-distance entry of the priority queue (`Q.top()`
/ `Q.pop()`); among equal keys the earliest-pushed entry wins, matching the
spec's FIFO-within-equal-priority description. -/
def popMin : List (Nat × ℚ) → Option ((Nat × ℚ) × List (Nat × ℚ))
  | [] => none
  | x :: xs =>
      match popMin xs with
      | none => some (x, [])
      | some (m, rest) =>
          if x.2 ≤ m.2 then some (x, xs) else some (m, x :: rest)

/-- Relax all edges incident to `u` (the inner `for` loop of the Dijkstra
iteration): for each neighbour reached through a cheaper path, update its
tentative distance and predecessor edge and push it onto the queue. -/
def relaxEdges (g : QgsTracerGraph) (F : List Bool) (u : Nat) :
    List Nat → List (Option ℚ) → List (Option Nat) → List (Nat × ℚ) →
    List (Option ℚ) × List (Option Nat) × List (Nat × ℚ)
  | [], D, S, Q => (D, S, Q)
  | eIdx :: rest, D, S, Q =>
      let e := g.e.getD eIdx default
      let v := e.otherVertex u
      let w := e.weight
      match D.getD u none with
      | none => relaxEdges g F u rest D S Q
      | some du =>
          if !F.getD v false && dLt (some (du + w)) (D.getD v none) then
            relaxEdges g F u rest (D.set v (some (du + w)))
              (S.set v (some eIdx)) (Q ++ [(v, du + w)])
          else relaxEdges g F u rest D S Q

/-- The Dijkstra `while` loop. The state is `(D, F, S)` (tentative distances,
finalized flags, predecessor edges) and `u` is the most recently popped
vertex (`-1` before the first pop). The fuel argument only serves structural
termination; `shortestPath` supplies `sumAdj g + 2`, which dominates the
total number of pops (one initial entry plus at most one push per adjacency
entry, since a finalized vertex is never relaxed again). -/
def dijkstraLoop (g : QgsTracerGraph) (v2t : Nat) (fuel : Nat)
    (Q : List (Nat × ℚ)) (st : List (Option ℚ) × List Bool × List (Option Nat))
    (u : Int) : Int × (List (Option ℚ) × List Bool × List (Option Nat)) :=
  match fuel with
  | 0 => (u, st)
  | fuel + 1 =>
      match popMin Q with
      | none => (u, st)
      | some ((uNew, _d), Qr) =>
          if uNew = v2t then (Int.ofNat uNew, st)
          else if st.2.1.getD uNew false then
            dijkstraLoop g v2t fuel Qr st (Int.ofNat uNew)
          else
            let es := (g.v.getD uNew default).edges
            let r := relaxEdges g st.2.1 uNew es st.1 st.2.2 Qr
            dijkstraLoop g v2t fuel r.2.2 (r.1, st.2.1.set uNew true, r.2.1)
              (Int.ofNat uNew)

/-- Total number of adjacency-list entries; used to bound the solver loop. -/
def sumAdj (g : QgsTracerGraph) : Nat :=
  (g.v.map (fun vv => vv.edges.length)).sum

/-- Path reconstruction: walk backward from the target along predecessor
edges, orienting each edge's coordinate run to start at the vertex currently
being approached and chopping the duplicated shared coordinate before each
concatenation (the fuel `g.v.length + 1` dominates the predecessor chain
length). -/
def reconstructLoop (g : QgsTracerGraph) (S : List (Option Nat)) (fuel : Nat)
    (u : Nat) (points : LineString) : LineString :=
  match fuel with
  | 0 => points
  | fuel + 1 =>
      match S.getD u none with
      | none => points
      | some sIdx =>
          let e := g.e.getD sIdx default
          let edgePoints :=
            if pointNear (e.coords.headD default) (g.v.getD u default).pt
            then e.coords else e.coords.reverse
          let points2 :=
            (if points = [] then points else points.dropLast) ++ edgePoints
          reconstructLoop g S fuel (e.otherVertex u) points2

/-- `shortestPath`: single-pair Dijkstra between two vertex indices over the
current graph; `-1` input, an unreached target or an exhausted queue yield
the empty polyline. -/
def shortestPath (g : QgsTracerGraph) (v1 v2 : Int) : LineString :=
  if v1 = -1 ∨ v2 = -1 then []
  else
    let n := g.v.length
    let D0 := (List.replicate n (none : Option ℚ)).set v1.toNat (some (0 : ℚ))
    let st0 := (D0, List.replicate n false, List.replicate n (none : Option Nat))
    let res := dijkstraLoop g v2.toNat (sumAdj g + 2) [(v1.toNat, (0 : ℚ))] st0 (-1)
    if res.1 ≠ v2 then []
    else (reconstructLoop g res.2.2.2 (g.v.length + 1) res.1.toNat []).reverse

/-! ## Tracer session (`QgsTracer`) -/

/-- `QgsTracer::PathError`. -/
inductive PathError
  | ErrNone
  | ErrTooManyFeatures
  | ErrPoint1
  | ErrPoint2
  | ErrNoPath
deriving DecidableEq, Repr

/-- The tracer session state. The layer list, CRS, transform context, render
context and extent are opaque identifiers here: the claims about them only
compare values and observe invalidation. `mGraph = none` is the Empty state
(no cached graph). -/
structure QgsTracer where
  mGraph : Option QgsTracerGraph
  mLayers : List Nat
  mCRS : Nat
  mTransformContext : Nat
  mRenderContext : Option Nat
  mExtent : Nat
  mOffset : ℚ
  mOffsetSegments : Int
  mOffsetJoinStyle : Int
  mOffsetMiterLimit : ℚ
deriving DecidableEq, Repr

/-- `QgsTracer::invalidateGraph`: discard the cached graph. -/
def invalidateGraph (t : QgsTracer) : QgsTracer :=
  { t with mGraph := none }

/-- `QgsTracer::setLayers`: no-op on an unchanged layer list, otherwise store
the new list and invalidate (the signal (dis)connection plumbing is outside
the model). -/
def setLayers (t : QgsTracer) (layers : List Nat) : QgsTracer :=
  if t.mLayers = layers then t
  else invalidateGraph { t with mLayers := layers }

/-- `QgsTracer::setDestinationCrs`: store CRS and transform context and
invalidate unconditionally. -/
def setDestinationCrs (t : QgsTracer) (crs tctx : Nat) : QgsTracer :=
  invalidateGraph { t with mCRS := crs, mTransformContext := tctx }

/-- `QgsTracer::setRenderContext`: store the render context and invalidate
unconditionally. -/
def setRenderContext (t : QgsTracer) (rc : Nat) : QgsTracer :=
  invalidateGraph { t with mRenderContext := some rc }

/-- `QgsTracer::setExtent`: no-op on an unchanged extent, otherwise store and
invalidate. -/
def setExtent (t : QgsTracer) (ext : Nat) : QgsTracer :=
  if t.mExtent = ext then t
  else invalidateGraph { t with mExtent := ext }

/-- `QgsTracer::setOffset`: store the offset; the cached graph is untouched.
-/
def setOffset (t : QgsTracer) (o : ℚ) : QgsTracer :=
  { t with mOffset := o }

/-- `QgsTracer::setOffsetParameters`: store the quad-segment count, join
style and miter limit; the cached graph is untouched. -/
def setOffsetParameters (t : QgsTracer) (quadSegments joinStyle : Int)
    (miterLimit : ℚ) : QgsTracer :=
  { t with
      mOffsetSegments := quadSegments,
      mOffsetJoinStyle := joinStyle,
      mOffsetMiterLimit := miterLimit }

/-- The external curve-offset collaborator
(`QgsGeometryEngine::offsetCurve`), taken as a parameter: it receives the
raw path, the offset distance, the segment count, the join style and the
miter limit, and returns an offset polyline or fails (`none` models a result
that is not a linestring). -/
abbrev OffsetFn :=
  LineString → ℚ → Int → Int → ℚ → Option LineString

/-- `QgsTracer::findShortestPath`. The lazy build from the external feature
sources is outside the model: a session without a cached graph reports the
build-failure error, a session with one uses it. Both query points are
resolved before the per-point error checks; `resetGraph` runs only on the
path that reaches the solver, exactly as in the source. Returns the final
polyline, the error code and the session as left behind by the call. -/
def findShortestPath (f : OffsetFn) (tracer : QgsTracer)
    (p1 p2 : QgsPoint) : LineString × PathError × QgsTracer :=
  match tracer.mGraph with
  | none => ([], PathError.ErrTooManyFeatures, tracer)
  | some g =>
      let r1 := pointInGraph g p1
      let r2 := pointInGraph r1.1 p2
      match r1.2, r2.2 with
      | none, _ => ([], PathError.ErrPoint1, { tracer with mGraph := some r2.1 })
      | some _, none =>
          ([], PathError.ErrPoint2, { tracer with mGraph := some r2.1 })
      | some v1, some v2 =>
          let points := shortestPath r2.1 (Int.ofNat v1) (Int.ofNat v2)
          let gReset := resetGraph r2.1
          let points2 :=
            if points ≠ [] ∧ tracer.mOffset ≠ 0 then
              match f points tracer.mOffset tracer.mOffsetSegments
                  tracer.mOffsetJoinStyle tracer.mOffsetMiterLimit with
              | some ls2 =>
                  if 2 ≤ ls2.length then
                    let res1 := ls2.headD default
                    let res2 := ls2.getLastD default
                    let diffNormal := euclidDist res1 p1 + euclidDist res2 p2
                    let diffReversed := euclidDist res1 p2 + euclidDist res2 p1
                    if diffReversed < diffNormal then ls2.reverse else ls2
                  else ls2
              | none => points
            else points
          (points2,
           if points2 = [] then PathError.ErrNoPath else PathError.ErrNone,
           { tracer with mGraph := some gReset })

/-! ## Concrete fixtures used by witnesses and counterexamples -/

/-- Graph with a single diagonal edge from the origin to `(8, 8)`. -/
def demoDiagGraph : QgsTracerGraph := makeGraph [[⟨0, 0⟩, ⟨8, 8⟩]]

/-- Session holding `demoDiagGraph`, zero offset. -/
def demoDiagSession : QgsTracer :=
  ⟨some demoDiagGraph, [], 0, 0, none, 0, 0, 8, 0, 2⟩

/-- Offset collaborator that always fails (irrelevant at zero offset). -/
def offsetNone : OffsetFn := fun _ _ _ _ _ => none

/-- Query point within the Chebyshev locator tolerance of the diagonal
edge's midpoint, but whose Euclidean distance to the edge exceeds the edge
tolerance: it resolves to no vertex and no edge of `demoDiagGraph`. -/
def demoOffPoint : QgsPoint := ⟨4 + 9 / 10000000, 4 - 9 / 10000000⟩

/-- The midpoint of the diagonal edge: it lies on the edge's interior. -/
def demoMidPoint : QgsPoint := ⟨4, 4⟩

/-- L-shaped graph: two edges sharing the origin vertex, whose adjacency
list is `[0, 1]`. -/
def demoLGraph : QgsTracerGraph :=
  makeGraph [[⟨0, 0⟩, ⟨10, 0⟩], [⟨0, 0⟩, ⟨0, 10⟩]]

/-- One polyline with an interior point. -/
def demoThreePointLines : List LineString := [[⟨0, 0⟩, ⟨5, 0⟩, ⟨10, 0⟩]]

/-- Graph with one 3-4-5 edge (integral Euclidean length). -/
def demoOffsetGraph : QgsTracerGraph := makeGraph [[⟨0, 0⟩, ⟨3, 4⟩]]

/-- Session holding `demoOffsetGraph` with offset distance 1. -/
def demoOffsetSession : QgsTracer :=
  ⟨some demoOffsetGraph, [], 0, 0, none, 0, 1, 8, 0, 2⟩

/-- Offset collaborator returning a fixed displaced copy of the 3-4-5 path.
-/
def demoOffsetFn : OffsetFn := fun _ _ _ _ _ => some [⟨0, 1⟩, ⟨3, 5⟩]

/-- Two disjoint segments sharing no endpoints. -/
def demoDisjointLines : List LineString :=
  [[⟨0, 0⟩, ⟨1, 0⟩], [⟨5, 5⟩, ⟨6, 5⟩]]

/-! ## Small helper lemmas -/

lemma getD_replicate {α : Type} (n i : Nat) (a : α) :
    (List.replicate n a).getD i a = a := by
  induction n generalizing i with
  | zero => simp [List.getD]
  | succ n ih =>
      cases i with
      | zero => simp [List.replicate]
      | succ j => simp only [List.replicate, List.getD_cons_succ]; exact ih j

/-- `shortestPath` between a vertex and itself stops at the very first pop
(the popped vertex is the target) and reconstructs the empty polyline, since
the target has no predecessor edge. -/
lemma shortestPath_self (g : QgsTracerGraph) (v : Nat) :
    shortestPath g (Int.ofNat v) (Int.ofNat v) = [] := by
  have hne : ¬(Int.ofNat v = -1 ∨ Int.ofNat v = -1) := by
    show ¬((v : Int) = -1 ∨ (v : Int) = -1)
    omega
  unfold shortestPath
  rw [if_neg hne]
  dsimp only
  rw [show (Int.ofNat v).toNat = v from rfl]
  rw [show sumAdj g + 2 = (sumAdj g + 1) + 1 from rfl]
  rw [dijkstraLoop.eq_def]
  dsimp only
  rw [show popMin [(v, (0 : ℚ))] = some ((v, (0 : ℚ)), []) from rfl]
  dsimp only
  rw [if_pos rfl]
  rw [if_neg (show ¬(Int.ofNat v ≠ Int.ofNat v) from fun h => h rfl)]
  rw [show g.v.length + 1 = g.v.length + 1 from rfl]
  rw [reconstructLoop.eq_def]
  dsimp only
  rw [show (Int.ofNat v).toNat = v from rfl]
  rw [getD_replicate]
  rfl

/-! ## Claim C1 -/

/-- C1: after `findShortestPath` returns with any error code, all temporary
splice insertions are claimed to have been reverted. The code violates this:
when the first point is unresolvable it returns `ErrPoint1` before
`resetGraph` runs, leaving the second point's splice (an extra vertex, two
extra edges, a deactivated original edge and `joinedVertices = 1`) in the
cached graph, which the next query then observes. -/
theorem C1_error_return_leaves_splice :
    (findShortestPath offsetNone demoDiagSession demoOffPoint demoMidPoint).2.1
      = PathError.ErrPoint1 ∧
    (findShortestPath offsetNone demoDiagSession demoOffPoint demoMidPoint).2.2.mGraph
      ≠ some demoDiagGraph ∧
    ((findShortestPath offsetNone demoDiagSession demoOffPoint demoMidPoint).2.2.mGraph.getD
      default).joinedVertices = 1 ∧
    ((findShortestPath offsetNone demoDiagSession demoOffPoint demoMidPoint).2.2.mGraph.getD
      default).v.length = demoDiagGraph.v.length + 1 := by
  decide

/-! ## Claim C8 -/

/-- C8: invoking `findShortestPath` twice with identical inputs on an
unchanged session is claimed to yield identical results. It does not: at this
input the first call answers `ErrPoint1` (leaving the splice of the second
point in the graph, see C1), and the second identical call then resolves the
first point against the leaked splice vertex and answers `ErrNoPath`. -/
theorem C8_identical_calls_differ :
    (findShortestPath offsetNone demoDiagSession demoOffPoint demoMidPoint).2.1
      = PathError.ErrPoint1 ∧
    (findShortestPath offsetNone
        (findShortestPath offsetNone demoDiagSession demoOffPoint demoMidPoint).2.2
        demoOffPoint demoMidPoint).2.1 = PathError.ErrNoPath ∧
    PathError.ErrPoint1 ≠ PathError.ErrNoPath := by
  decide

/-! ## Claim C3 -/

/-- The list of endpoint points (start and end) of each input polyline, in
input order. -/
def endpointsOf (lines : List LineString) : List QgsPoint :=
  (lines.map (fun l => [l.headD default, l.getLastD default])).flatten

lemma lookupPoint_eq_none {m : List (QgsPoint × Nat)} {p : QgsPoint}
    (h : ∀ q ∈ m.map Prod.fst, ¬ pointNear q p) : lookupPoint m p = none := by
  induction m with
  | nil => rfl
  | cons x xs ih =>
      have hx : ¬ pointNear x.1 p := h x.1 (by simp)
      simp only [lookupPoint, if_neg hx]
      exact ih (fun q hq => h q (by simp [hq]))

/-- Effect of one `makeGraph` iteration when both endpoints of the new line
miss the hash: two fresh vertices, one fresh edge, and the hash gains the two
endpoints as keys. -/
lemma makeGraphStep_state (g : QgsTracerGraph) (m : List (QgsPoint × Nat))
    (line : LineString)
    (h1 : ∀ q ∈ m.map Prod.fst, ¬ pointNear q (line.headD default))
    (h2 : ∀ q ∈ m.map Prod.fst, ¬ pointNear q (line.getLastD default))
    (h3 : ¬ pointNear (line.headD default) (line.getLastD default)) :
    (makeGraphStep (g, m) line).1.v.length = g.v.length + 2 ∧
    (makeGraphStep (g, m) line).1.e.length = g.e.length + 1 ∧
    (makeGraphStep (g, m) line).2.map Prod.fst =
      m.map Prod.fst ++ [line.headD default, line.getLastD default] := by
  have h2x : ∀ q ∈ (m ++ [(line.headD default, g.v.length)]).map Prod.fst,
      ¬ pointNear q (line.getLastD default) := by
    intro q hq
    simp only [List.map_append, List.mem_append, List.map_cons, List.map_nil,
      List.mem_singleton] at hq
    rcases hq with hq | hq
    · exact h2 q hq
    · rw [hq]; exact h3
  unfold makeGraphStep getOrAddVertex
  dsimp only
  rw [lookupPoint_eq_none h1]
  dsimp only
  rw [lookupPoint_eq_none h2x]
  dsimp only
  refine ⟨?_, ?_, ?_⟩ <;>
    simp [mapVertexEdges, List.length_set, List.length_append]

/-- Running the builder's fold over lines whose endpoints are pairwise
non-coincident (also with respect to the keys already in the hash) adds two
vertices and one edge per line. -/
lemma makeGraph_foldl_counts (lines : List LineString) :
    ∀ (g : QgsTracerGraph) (m : List (QgsPoint × Nat)),
    List.Pairwise (fun p q => ¬ pointNear p q) (m.map Prod.fst ++ endpointsOf lines) →
    (lines.foldl makeGraphStep (g, m)).1.v.length = g.v.length + 2 * lines.length ∧
    (lines.foldl makeGraphStep (g, m)).1.e.length = g.e.length + lines.length := by
  induction lines with
  | nil => intro g m _h; simp
  | cons line rest ih =>
      intro g m hp
      have heps : endpointsOf (line :: rest) =
          line.headD default :: line.getLastD default :: endpointsOf rest := by
        simp [endpointsOf]
      rw [heps] at hp
      rw [List.pairwise_append] at hp
      obtain ⟨hkeys, htail, hcross⟩ := hp
      have h3 : ¬ pointNear (line.headD default) (line.getLastD default) :=
        List.rel_of_pairwise_cons htail (by simp)
      have h1 : ∀ q ∈ m.map Prod.fst, ¬ pointNear q (line.headD default) :=
        fun q hq => hcross q hq _ (by simp)
      have h2 : ∀ q ∈ m.map Prod.fst, ¬ pointNear q (line.getLastD default) :=
        fun q hq => hcross q hq _ (by simp)
      obtain ⟨hv, he, hm⟩ := makeGraphStep_state g m line h1 h2 h3
      have hfold : (line :: rest).foldl makeGraphStep (g, m) =
          rest.foldl makeGraphStep (makeGraphStep (g, m) line) := rfl
      have hpair : List.Pairwise (fun p q => ¬ pointNear p q)
          ((makeGraphStep (g, m) line).2.map Prod.fst ++ endpointsOf rest) := by
        rw [hm]
        rw [List.pairwise_append]
        refine ⟨?_, ?_, ?_⟩
        · rw [List.pairwise_append]
          refine ⟨hkeys, ?_, ?_⟩
          · exact List.Pairwise.sublist (by simp) htail
          · intro a ha b hb
            simp only [List.mem_cons, List.mem_singleton, List.not_mem_nil,
              or_false] at hb
            rcases hb with hb | hb
            · rw [hb]; exact hcross a ha _ (by simp)
            · rw [hb]; exact hcross a ha _ (by simp)
        · exact (List.pairwise_cons.mp (List.pairwise_cons.mp htail).2).2
        · intro a ha b hb
          simp only [List.mem_append, List.mem_cons, List.mem_singleton,
            List.not_mem_nil, or_false] at ha
          rcases ha with ha | ha
          · exact hcross a ha b (by simp [hb])
          · rcases ha with ha | ha
            · rw [ha]
              exact List.rel_of_pairwise_cons htail (by simp [hb])
            · rw [ha]
              exact List.rel_of_pairwise_cons (List.pairwise_cons.mp htail).2
                (by simp [hb])
      have hrec := ih (makeGraphStep (g, m) line).1 (makeGraphStep (g, m) line).2
        hpair
      rw [Prod.mk.eta] at hrec
      rw [hfold]
      constructor
      · rw [hrec.1, hv, List.length_cons]; omega
      · rw [hrec.2, he, List.length_cons]; omega

/-- C3 (corrected): the builder makes vertices only for polyline endpoints,
so a collection of `N` pairwise-disjoint polylines sharing no endpoints
yields exactly `2 * N` vertices (zero merges) and `N` edges. -/
theorem C3_disjoint_polylines (lines : List LineString)
    (hdisj : List.Pairwise (fun p q => ¬ pointNear p q) (endpointsOf lines)) :
    (makeGraph lines).v.length = 2 * lines.length ∧
    (makeGraph lines).e.length = lines.length := by
  have h := makeGraph_foldl_counts lines ⟨[], [], [], 0⟩ []
    (by simpa using hdisj)
  simpa [makeGraph] using h

/-- C3 counterexample: one polyline of three points (disjoint from everything,
no shared endpoints) produces a graph with 2 vertices, not ΣnumPoints = 3;
interior polyline points do not become vertices. -/
theorem C3_counterexample_interior_points :
    (makeGraph demoThreePointLines).v.length = 2 ∧
    (demoThreePointLines.map List.length).sum = 3 ∧
    (makeGraph demoThreePointLines).e.length = 1 ∧ (2 : Nat) ≠ 3 := by
  decide

/-- Witness for C3 on two disjoint segments. -/
theorem C3_disjoint_polylines_witness :
    (makeGraph demoDisjointLines).v.length = 4 ∧
    (makeGraph demoDisjointLines).e.length = 2 := by
  have h := C3_disjoint_polylines demoDisjointLines (by decide)
  simpa using h

/-! ## Claim C4 -/

/-- C4: two polylines whose facing endpoints coincide within the builder's
near-exact tolerance (here: the end of the first line and the start of the
second), while all other endpoint pairs are distinct, share exactly one
vertex: the graph has 3 vertices, not 4, and both edges reference the shared
vertex index 1. -/
theorem C4_coincident_endpoints_merge (L1 L2 : LineString)
    (a1 b1 a2 b2 : QgsPoint)
    (ha1 : L1.headD default = a1) (hb1 : L1.getLastD default = b1)
    (ha2 : L2.headD default = a2) (hb2 : L2.getLastD default = b2)
    (hshare : pointNear b1 a2)
    (hn11 : ¬ pointNear a1 b1) (hn12 : ¬ pointNear a1 a2)
    (hn13 : ¬ pointNear a1 b2) (hn23 : ¬ pointNear b1 b2) :
    (makeGraph [L1, L2]).v.length = 3 ∧
    (makeGraph [L1, L2]).e.length = 2 ∧
    ((makeGraph [L1, L2]).e.getD 0 default).v2 = 1 ∧
    ((makeGraph [L1, L2]).e.getD 1 default).v1 = 1 := by
  have hstep1 : makeGraphStep (⟨[], [], [], 0⟩, []) L1 =
      (⟨[⟨a1, [0]⟩, ⟨b1, [0]⟩], [⟨0, 1, L1⟩], [], 0⟩, [(a1, 0), (b1, 1)]) := by
    unfold makeGraphStep getOrAddVertex
    dsimp only
    rw [ha1, hb1]
    rw [show lookupPoint [] a1 = none from rfl]
    dsimp only
    simp only [List.nil_append, List.length_nil]
    rw [show lookupPoint [(a1, 0)] b1 = none by simp [lookupPoint, hn11]]
    rfl
  have hstep2 : makeGraphStep
      (⟨[⟨a1, [0]⟩, ⟨b1, [0]⟩], [⟨0, 1, L1⟩], [], 0⟩, [(a1, 0), (b1, 1)]) L2 =
      (⟨[⟨a1, [0]⟩, ⟨b1, [0, 1]⟩, ⟨b2, [1]⟩], [⟨0, 1, L1⟩, ⟨1, 2, L2⟩], [], 0⟩,
        [(a1, 0), (b1, 1), (b2, 2)]) := by
    unfold makeGraphStep getOrAddVertex
    dsimp only
    rw [ha2, hb2]
    rw [show lookupPoint [(a1, 0), (b1, 1)] a2 = some 1 by
      simp [lookupPoint, hn12, hshare]]
    dsimp only
    rw [show lookupPoint [(a1, 0), (b1, 1)] b2 = none by
      simp [lookupPoint, hn13, hn23]]
    rfl
  unfold makeGraph
  rw [show ([L1, L2].foldl makeGraphStep (⟨[], [], [], 0⟩, [])) =
      makeGraphStep (makeGraphStep (⟨[], [], [], 0⟩, []) L1) L2 from rfl]
  rw [hstep1, hstep2]
  exact ⟨rfl, rfl, rfl, rfl⟩

/-- Witness for C4: two segments whose facing endpoints differ by `1e-9`
(within the near-exact tolerance, not bit-identical) collapse to one shared
vertex. -/
theorem C4_coincident_endpoints_merge_witness :
    (makeGraph [[⟨0, 0⟩, ⟨10, 0⟩], [⟨10, 1 / 1000000000⟩, ⟨20, 0⟩]]).v.length = 3 ∧
    (makeGraph [[⟨0, 0⟩, ⟨10, 0⟩], [⟨10, 1 / 1000000000⟩, ⟨20, 0⟩]]).e.length = 2 ∧
    ((makeGraph [[⟨0, 0⟩, ⟨10, 0⟩], [⟨10, 1 / 1000000000⟩, ⟨20, 0⟩]]).e.getD 0
      default).v2 = 1 ∧
    ((makeGraph [[⟨0, 0⟩, ⟨10, 0⟩], [⟨10, 1 / 1000000000⟩, ⟨20, 0⟩]]).e.getD 1
      default).v1 = 1 := by
  exact C4_coincident_endpoints_merge [⟨0, 0⟩, ⟨10, 0⟩] [⟨10, 1 / 1000000000⟩, ⟨20, 0⟩]
    ⟨0, 0⟩ ⟨10, 0⟩ ⟨10, 1 / 1000000000⟩ ⟨20, 0⟩
    rfl rfl rfl rfl (by decide) (by decide) (by decide) (by decide) (by decide)

/-! ## Claim C5 -/

/-- C5 counterexample: on a point that resolves to an existing vertex,
`findShortestPath(p, p)` does return a minimal (empty) path, but the error
is computed as `points.isEmpty() ? ErrNoPath : ErrNone`, so the reported
error is `NoPath`, not `None` as the claim states. -/
theorem C5_counterexample_self_query_error :
    (findShortestPath offsetNone demoDiagSession ⟨0, 0⟩ ⟨0, 0⟩).2.1
      ≠ PathError.ErrNone ∧
    point2vertex demoDiagGraph ⟨0, 0⟩ epsilonDefault = some 0 ∧
    (findShortestPath offsetNone demoDiagSession ⟨0, 0⟩ ⟨0, 0⟩).2.1
      = PathError.ErrNoPath := by
  decide

/-- C5 (corrected): `findShortestPath(p, p)` on a point that resolves to a
graph vertex returns the empty polyline with error `NoPath` (the solver
breaks at the first pop, the reconstruction is empty, and the error code is
derived from emptiness of the final polyline). -/
theorem C5_self_query (f : OffsetFn) (tracer : QgsTracer)
    (g : QgsTracerGraph) (p : QgsPoint) (v : Nat)
    (hg : tracer.mGraph = some g)
    (hv : point2vertex g p epsilonDefault = some v) :
    (findShortestPath f tracer p p).1 = [] ∧
    (findShortestPath f tracer p p).2.1 = PathError.ErrNoPath := by
  have hpg : pointInGraph g p = (g, some v) := by
    unfold pointInGraph
    rw [hv]
  have hsp : shortestPath g (v : Int) (v : Int) = [] := shortestPath_self g v
  constructor <;>
    simp [findShortestPath, hg, hpg, hsp]

/-- Witness for C5 at a concrete vertex of the diagonal graph. -/
theorem C5_self_query_witness :
    (findShortestPath offsetNone demoDiagSession ⟨0, 0⟩ ⟨0, 0⟩).1 = [] ∧
    (findShortestPath offsetNone demoDiagSession ⟨0, 0⟩ ⟨0, 0⟩).2.1
      = PathError.ErrNoPath :=
  C5_self_query offsetNone demoDiagSession demoDiagGraph ⟨0, 0⟩ 0 rfl (by decide)

/-! ## Claim C6 -/

/-- C6: when a query point has no on-graph representation — its resolution
through `pointInGraph` (no matching vertex, no active edge containing it)
fails — `findShortestPath` returns the empty polyline with the point-specific
error, without reaching the solver: the result is fixed by the early return.
The first conjunct covers `p1` (`ErrPoint1`), the second `p2` (`ErrPoint2`,
resolved against the graph state after `p1`'s resolution, as in the source).
-/
theorem C6_unresolved_point_error (f : OffsetFn) (tracer : QgsTracer)
    (g : QgsTracerGraph) (p1 p2 : QgsPoint)
    (hg : tracer.mGraph = some g) :
    ((pointInGraph g p1).2 = none →
      (findShortestPath f tracer p1 p2).1 = [] ∧
      (findShortestPath f tracer p1 p2).2.1 = PathError.ErrPoint1) ∧
    (∀ g1 w1, pointInGraph g p1 = (g1, some w1) →
      (pointInGraph g1 p2).2 = none →
      (findShortestPath f tracer p1 p2).1 = [] ∧
      (findShortestPath f tracer p1 p2).2.1 = PathError.ErrPoint2) := by
  constructor
  · intro h1
    rcases hpg : pointInGraph g p1 with ⟨ga, o1⟩
    rw [hpg] at h1
    dsimp at h1
    subst h1
    constructor <;> simp [findShortestPath, hg, hpg]
  · intro g1 w1 hp1 h2
    rcases hpg2 : pointInGraph g1 p2 with ⟨gb, o2⟩
    rw [hpg2] at h2
    dsimp at h2
    subst h2
    constructor <;> simp [findShortestPath, hg, hp1, hpg2]

/-- Witness for C6: both error cases exercised on the diagonal graph with a
far-away unresolvable point. -/
theorem C6_unresolved_point_error_witness :
    ((findShortestPath offsetNone demoDiagSession ⟨100, 100⟩ ⟨0, 0⟩).1 = [] ∧
     (findShortestPath offsetNone demoDiagSession ⟨100, 100⟩ ⟨0, 0⟩).2.1
       = PathError.ErrPoint1) ∧
    ((findShortestPath offsetNone demoDiagSession ⟨0, 0⟩ ⟨100, 100⟩).1 = [] ∧
     (findShortestPath offsetNone demoDiagSession ⟨0, 0⟩ ⟨100, 100⟩).2.1
       = PathError.ErrPoint2) := by
  constructor
  · exact (C6_unresolved_point_error offsetNone demoDiagSession demoDiagGraph
      ⟨100, 100⟩ ⟨0, 0⟩ rfl).1 (by decide)
  · exact (C6_unresolved_point_error offsetNone demoDiagSession demoDiagGraph
      ⟨0, 0⟩ ⟨100, 100⟩ rfl).2 demoDiagGraph 0 (by decide) (by decide)

/-! ## Claim C9 -/

/-- C9: with a non-zero configured offset and a non-empty raw path, the path
is handed to the curve-offset collaborator; a failed offset keeps the
original path, and a successful offset output is reversed exactly when its
endpoints are in total closer to the swapped query points than to the
original ones (the length guard `2 ≤ ls2.length` is the source's; for
shorter outputs reversal is the identity). -/
theorem C9_offset_direction (f : OffsetFn) (tracer : QgsTracer)
    (g g1 g2 : QgsTracerGraph) (p1 p2 : QgsPoint) (w1 w2 : Nat)
    (pts : LineString)
    (hg : tracer.mGraph = some g)
    (h1 : pointInGraph g p1 = (g1, some w1))
    (h2 : pointInGraph g1 p2 = (g2, some w2))
    (hpts : shortestPath g2 (Int.ofNat w1) (Int.ofNat w2) = pts)
    (hne : pts ≠ [])
    (hoff : tracer.mOffset ≠ 0) :
    (∀ ls2, f pts tracer.mOffset tracer.mOffsetSegments tracer.mOffsetJoinStyle
        tracer.mOffsetMiterLimit = some ls2 →
      (findShortestPath f tracer p1 p2).1 =
        if 2 ≤ ls2.length ∧
           euclidDist (ls2.headD default) p2 + euclidDist (ls2.getLastD default) p1 <
           euclidDist (ls2.headD default) p1 + euclidDist (ls2.getLastD default) p2
        then ls2.reverse else ls2) ∧
    (f pts tracer.mOffset tracer.mOffsetSegments tracer.mOffsetJoinStyle
        tracer.mOffsetMiterLimit = none →
      (findShortestPath f tracer p1 p2).1 = pts) := by
  constructor
  · intro ls2 hf
    simp only [findShortestPath, hg, h1, h2]
    rw [hpts]
    rw [if_pos ⟨hne, hoff⟩]
    rw [hf]
    dsimp only
    by_cases hl : 2 ≤ ls2.length
    · by_cases hc : euclidDist (ls2.headD default) p2 +
          euclidDist (ls2.getLastD default) p1 <
          euclidDist (ls2.headD default) p1 + euclidDist (ls2.getLastD default) p2
      · rw [if_pos hl, if_pos hc, if_pos ⟨hl, hc⟩]
      · rw [if_pos hl, if_neg hc, if_neg (by intro h; exact hc h.2)]
    · rw [if_neg hl, if_neg (by intro h; exact hl h.1)]
  · intro hf
    simp only [findShortestPath, hg, h1, h2]
    rw [hpts]
    rw [if_pos ⟨hne, hoff⟩]
    rw [hf]

/-- Witness for C9 on the 3-4-5 edge: the collaborator's output endpoints
are closer to the original query points, so the output is kept unreversed,
and a failing collaborator keeps the raw path. -/
theorem C9_offset_direction_witness :
    (findShortestPath demoOffsetFn demoOffsetSession ⟨0, 0⟩ ⟨3, 4⟩).1
      = [⟨0, 1⟩, ⟨3, 5⟩] ∧
    (findShortestPath offsetNone demoOffsetSession ⟨0, 0⟩ ⟨3, 4⟩).1
      = [⟨0, 0⟩, ⟨3, 4⟩] := by
  constructor
  · have h := (C9_offset_direction demoOffsetFn demoOffsetSession
      demoOffsetGraph demoOffsetGraph demoOffsetGraph ⟨0, 0⟩ ⟨3, 4⟩ 0 1
      [⟨0, 0⟩, ⟨3, 4⟩] rfl (by decide) (by decide) (by decide) (by decide)
      (by decide)).1 [⟨0, 1⟩, ⟨3, 5⟩] rfl
    rw [h]
    decide
  · exact (C9_offset_direction offsetNone demoOffsetSession
      demoOffsetGraph demoOffsetGraph demoOffsetGraph ⟨0, 0⟩ ⟨3, 4⟩ 0 1
      [⟨0, 0⟩, ⟨3, 4⟩] rfl (by decide) (by decide) (by decide) (by decide)
      (by decide)).2 rfl

/-! ## Claim C10 -/

/-- C10: the offset setters never discard the cached graph (the new offset
parameters are only stored for later queries), while `setLayers`,
`setDestinationCrs`, `setRenderContext` and `setExtent` with a changed value
discard it, returning the session to the Empty state. -/
theorem C10_setter_invalidation (t : QgsTracer) (layers : List Nat)
    (crs tctx rc ext : Nat) (o ml : ℚ) (qs js : Int) :
    (setOffset t o).mGraph = t.mGraph ∧
    (setOffset t o).mOffset = o ∧
    (setOffsetParameters t qs js ml).mGraph = t.mGraph ∧
    (t.mLayers ≠ layers → (setLayers t layers).mGraph = none) ∧
    (setDestinationCrs t crs tctx).mGraph = none ∧
    (setRenderContext t rc).mGraph = none ∧
    (t.mExtent ≠ ext → (setExtent t ext).mGraph = none) := by
  refine ⟨rfl, rfl, rfl, ?_, rfl, rfl, ?_⟩
  · intro h
    unfold setLayers invalidateGraph
    rw [if_neg h]
  · intro h
    unfold setExtent invalidateGraph
    rw [if_neg h]

/-- Witness for C10 at a concrete session. -/
theorem C10_setter_invalidation_witness :
    (setOffset demoDiagSession 5).mGraph = demoDiagSession.mGraph ∧
    (setOffset demoDiagSession 5).mOffset = 5 ∧
    (setOffsetParameters demoDiagSession 4 1 3).mGraph = demoDiagSession.mGraph ∧
    (setLayers demoDiagSession [7]).mGraph = none ∧
    (setDestinationCrs demoDiagSession 1 1).mGraph = none ∧
    (setRenderContext demoDiagSession 1).mGraph = none ∧
    (setExtent demoDiagSession 3).mGraph = none := by
  obtain ⟨h1, h2, h3, h4, h5, h6, h7⟩ :=
    C10_setter_invalidation demoDiagSession [7] 1 1 1 3 5 3 4 1
  exact ⟨h1, h2, h3, h4 (by decide), h5, h6, h7 (by decide)⟩

/-! ## Claim C7 -/

/-- One adjacency step: `v` is reached from `u` through an edge listed in
`u`'s adjacency list — exactly the edges the Dijkstra relaxation follows. -/
def adjStep (g : QgsTracerGraph) (u v : Nat) : Prop :=
  ∃ eIdx ∈ (g.v.getD u default).edges, (g.e.getD eIdx default).otherVertex u = v

/-- Connectivity along adjacency steps (an edge path in the graph). -/
def Reachable (g : QgsTracerGraph) (u v : Nat) : Prop :=
  Relation.ReflTransGen (adjStep g) u v

lemma popMin_mem {l : List (Nat × ℚ)} {m : Nat × ℚ} {rest : List (Nat × ℚ)}
    (h : popMin l = some (m, rest)) : m ∈ l ∧ ∀ x ∈ rest, x ∈ l := by
  induction l generalizing m rest with
  | nil => cases h
  | cons x xs ih =>
      rw [popMin] at h
      cases hxs : popMin xs with
      | none =>
          rw [hxs] at h
          cases h
          exact ⟨by simp, by simp⟩
      | some mr =>
          obtain ⟨m', rest'⟩ := mr
          rw [hxs] at h
          dsimp only at h
          by_cases hle : x.2 ≤ m'.2
          · rw [if_pos hle] at h
            cases h
            exact ⟨by simp, fun y hy => by simp [hy]⟩
          · rw [if_neg hle] at h
            cases h
            obtain ⟨hm', hrest'⟩ := ih hxs
            refine ⟨by simp [hm'], ?_⟩
            intro y hy
            rcases List.mem_cons.mp hy with h | h
            · simp [h]
            · simp [hrest' y h]

/-- Every entry the relaxation adds to the queue is an adjacency-successor of
the vertex being processed; the others were already in the queue. -/
lemma relaxEdges_queue_mem (g : QgsTracerGraph) (F : List Bool) (u : Nat) :
    ∀ (edges : List Nat) (D : List (Option ℚ)) (S : List (Option Nat))
      (Q : List (Nat × ℚ)), ∀ x ∈ (relaxEdges g F u edges D S Q).2.2,
      x ∈ Q ∨ ∃ eIdx ∈ edges, (g.e.getD eIdx default).otherVertex u = x.1 := by
  intro edges
  induction edges with
  | nil => intro D S Q x hx; exact Or.inl hx
  | cons eIdx rest ih =>
      intro D S Q x hx
      rw [relaxEdges] at hx
      cases hD : D.getD u none with
      | none =>
          rw [hD] at hx
          dsimp only at hx
          rcases ih _ _ _ x hx with h | ⟨e', he', ho⟩
          · exact Or.inl h
          · exact Or.inr ⟨e', by simp [he'], ho⟩
      | some du =>
          rw [hD] at hx
          dsimp only at hx
          by_cases hc : (!F.getD ((g.e.getD eIdx default).otherVertex u) false &&
              dLt (some (du + (g.e.getD eIdx default).weight))
                (D.getD ((g.e.getD eIdx default).otherVertex u) none)) = true
          · rw [if_pos hc] at hx
            rcases ih _ _ _ x hx with h | ⟨e', he', ho⟩
            · rcases List.mem_append.mp h with h | h
              · exact Or.inl h
              · have hx1 : x = ((g.e.getD eIdx default).otherVertex u,
                    du + (g.e.getD eIdx default).weight) := by simpa using h
                exact Or.inr ⟨eIdx, by simp, by rw [hx1]⟩
            · exact Or.inr ⟨e', by simp [he'], ho⟩
          · rw [if_neg hc] at hx
            rcases ih _ _ _ x hx with h | ⟨e', he', ho⟩
            · exact Or.inl h
            · exact Or.inr ⟨e', by simp [he'], ho⟩

/-- Invariant of the Dijkstra loop: when the target is unreachable from the
source and every queued vertex is reachable, the loop (for any fuel) never
ends on the target — neither through the break nor through exhaustion. -/
lemma dijkstraLoop_avoids_unreachable (g : QgsTracerGraph) (src v2t : Nat)
    (hnr : ¬ Reachable g src v2t) :
    ∀ (fuel : Nat) (Q : List (Nat × ℚ))
      (st : List (Option ℚ) × List Bool × List (Option Nat)) (u : Int),
      (∀ x ∈ Q, Reachable g src x.1) → u ≠ Int.ofNat v2t →
      (dijkstraLoop g v2t fuel Q st u).1 ≠ Int.ofNat v2t := by
  intro fuel
  induction fuel with
  | zero =>
      intro Q st u _hQ hu
      rw [dijkstraLoop.eq_def]
      exact hu
  | succ fuel ih =>
      intro Q st u hQ hu
      rw [dijkstraLoop.eq_def]
      dsimp only
      cases hpop : popMin Q with
      | none => exact hu
      | some pr =>
          obtain ⟨⟨uNew, d⟩, Qr⟩ := pr
          dsimp only
          have hreachU : Reachable g src uNew := hQ _ (popMin_mem hpop).1
          have hQr : ∀ x ∈ Qr, Reachable g src x.1 :=
            fun x hx => hQ x ((popMin_mem hpop).2 x hx)
          have hne : uNew ≠ v2t := fun h => hnr (h ▸ hreachU)
          have hune : Int.ofNat uNew ≠ Int.ofNat v2t :=
            fun h => hne (Int.ofNat.inj h)
          rw [if_neg hne]
          by_cases hF : st.2.1.getD uNew false = true
          · rw [if_pos hF]
            exact ih Qr st (Int.ofNat uNew) hQr hune
          · rw [if_neg hF]
            refine ih _ _ (Int.ofNat uNew) ?_ hune
            intro x hx
            rcases relaxEdges_queue_mem g st.2.1 uNew
                (g.v.getD uNew default).edges st.1 st.2.2 Qr x hx with h | ⟨e', he', ho⟩
            · exact hQr x h
            · exact hreachU.tail ⟨e', he', ho⟩

/-- When the target vertex is unreachable from the source, the solver's queue
drains (or the fuel bound is hit) without the target ever being popped, and
`shortestPath` returns the empty polyline. -/
lemma shortestPath_no_path (g : QgsTracerGraph) (w1 w2 : Nat)
    (hnr : ¬ Reachable g w1 w2) :
    shortestPath g (Int.ofNat w1) (Int.ofNat w2) = [] := by
  have hne : ¬(Int.ofNat w1 = -1 ∨ Int.ofNat w2 = -1) := by
    show ¬((w1 : Int) = -1 ∨ (w2 : Int) = -1)
    omega
  unfold shortestPath
  rw [if_neg hne]
  dsimp only
  rw [show (Int.ofNat w1).toNat = w1 from rfl,
      show (Int.ofNat w2).toNat = w2 from rfl]
  have hres := dijkstraLoop_avoids_unreachable g w1 w2 hnr (sumAdj g + 2)
    [(w1, (0 : ℚ))]
    (((List.replicate g.v.length (none : Option ℚ)).set w1 (some 0)),
      List.replicate g.v.length false,
      List.replicate g.v.length (none : Option Nat)) (-1)
    (by
      intro x hx
      have hx1 : x = (w1, (0 : ℚ)) := by simpa using hx
      rw [hx1]
      exact Relation.ReflTransGen.refl)
    (by
      show (-1 : Int) ≠ (w2 : Int)
      omega)
  rw [if_pos hres]

/-- C7: when the two resolved endpoints have no connecting edge path in the
(possibly spliced) graph, the solver never reaches the target and
`findShortestPath` returns the empty polyline with error `NoPath`. -/
theorem C7_no_path (f : OffsetFn) (tracer : QgsTracer)
    (g g1 g2 : QgsTracerGraph) (p1 p2 : QgsPoint) (w1 w2 : Nat)
    (hg : tracer.mGraph = some g)
    (h1 : pointInGraph g p1 = (g1, some w1))
    (h2 : pointInGraph g1 p2 = (g2, some w2))
    (hnr : ¬ Reachable g2 w1 w2) :
    (findShortestPath f tracer p1 p2).1 = [] ∧
    (findShortestPath f tracer p1 p2).2.1 = PathError.ErrNoPath := by
  have hsp : shortestPath g2 (w1 : Int) (w2 : Int) = [] :=
    shortestPath_no_path g2 w1 w2 hnr
  constructor <;> simp [findShortestPath, hg, h1, h2, hsp]

/-- A set of vertices closed under adjacency steps contains everything
reachable from its members. -/
lemma reachable_closed {g : QgsTracerGraph} {S : List Nat}
    (hS : ∀ u ∈ S, ∀ eIdx ∈ (g.v.getD u default).edges,
      (g.e.getD eIdx default).otherVertex u ∈ S)
    {a b : Nat} (ha : a ∈ S) (h : Reachable g a b) : b ∈ S := by
  induction h with
  | refl => exact ha
  | tail _hab hstep ih =>
      obtain ⟨eIdx, he, ho⟩ := hstep
      exact ho ▸ hS _ ih eIdx he

/-- Graph with two disconnected components, used by C7's witness. -/
def demoDisjointGraph : QgsTracerGraph := makeGraph demoDisjointLines

/-- Session holding `demoDisjointGraph`. -/
def demoDisjointSession : QgsTracer :=
  ⟨some demoDisjointGraph, [], 0, 0, none, 0, 0, 8, 0, 2⟩

/-- Witness for C7: endpoints in different components give `NoPath`. -/
theorem C7_no_path_witness :
    (findShortestPath offsetNone demoDisjointSession ⟨0, 0⟩ ⟨5, 5⟩).1 = [] ∧
    (findShortestPath offsetNone demoDisjointSession ⟨0, 0⟩ ⟨5, 5⟩).2.1
      = PathError.ErrNoPath := by
  have hS : ∀ u ∈ [0, 1], ∀ eIdx ∈ (demoDisjointGraph.v.getD u default).edges,
      (demoDisjointGraph.e.getD eIdx default).otherVertex u ∈ [0, 1] := by
    decide
  have hnr : ¬ Reachable demoDisjointGraph 0 2 := by
    intro h
    have h2 := reachable_closed hS (by decide) h
    exact absurd h2 (by decide)
  exact C7_no_path offsetNone demoDisjointSession demoDisjointGraph
    demoDisjointGraph demoDisjointGraph ⟨0, 0⟩ ⟨5, 5⟩ 0 2 rfl
    (by decide) (by decide) hnr

/-! ## Claim C2 -/

/-- C2 counterexample: splicing the midpoint of edge 0 of the L-graph and
reverting leaves vertex 0's adjacency list as `[1, 0]`, not the original
`[0, 1]`: `resetGraph` re-appends the restored edge at the end of the list,
so byte-for-byte (order-sensitive) equality fails even though the elements
agree. -/
theorem C2_counterexample_adjacency_order :
    point2edge demoLGraph ⟨5, 0⟩ epsilonDefault = some (0, 1) ∧
    ((resetGraph (joinVertexToGraph demoLGraph ⟨5, 0⟩).1).v.getD 0 default).edges
      = [1, 0] ∧
    (demoLGraph.v.getD 0 default).edges = [0, 1] ∧
    ([1, 0] : List Nat) ≠ [0, 1] := by
  decide

lemma getD_mem {α : Type} [Inhabited α] {l : List α} {i : Nat}
    (h : i < l.length) : l.getD i default ∈ l := by
  rw [List.getD_eq_getElem _ _ h]
  exact List.getElem_mem h

lemma getD_set_self {α : Type} [Inhabited α] {l : List α} {i : Nat} (x : α)
    (h : i < l.length) : (l.set i x).getD i default = x := by
  rw [List.getD_eq_getElem _ _ (by simpa using h)]
  simp [List.getElem_set]

lemma getD_set_ne {α : Type} [Inhabited α] {l : List α} {i j : Nat} (x : α)
    (h : i ≠ j) : (l.set i x).getD j default = l.getD j default := by
  by_cases hj : j < l.length
  · rw [List.getD_eq_getElem _ _ (by simpa using hj),
      List.getD_eq_getElem _ _ hj]
    exact List.getElem_set_of_ne h x _
  · rw [List.getD_eq_default _ _ (by simpa using Nat.le_of_not_lt hj),
      List.getD_eq_default _ _ (Nat.le_of_not_lt hj)]

lemma mapVertexEdges_e (g : QgsTracerGraph) (i : Nat)
    (f : List Nat → List Nat) : (mapVertexEdges g i f).e = g.e := rfl

lemma mapVertexEdges_v_length (g : QgsTracerGraph) (i : Nat)
    (f : List Nat → List Nat) :
    (mapVertexEdges g i f).v.length = g.v.length := by
  simp [mapVertexEdges]

lemma mapVertexEdges_getD_self (g : QgsTracerGraph) (i : Nat)
    (f : List Nat → List Nat) (h : i < g.v.length) :
    (mapVertexEdges g i f).v.getD i default =
      ⟨(g.v.getD i default).pt, f (g.v.getD i default).edges⟩ :=
  getD_set_self _ h

lemma mapVertexEdges_getD_ne (g : QgsTracerGraph) (i j : Nat)
    (f : List Nat → List Nat) (h : i ≠ j) :
    (mapVertexEdges g i f).v.getD j default = g.v.getD j default :=
  getD_set_ne _ h

lemma point2edgeAux_lt (g : QgsTracerGraph) (pt : QgsPoint) (eps : ℚ) :
    ∀ (l : List E) (i : Nat) (r : Nat × Nat),
      point2edgeAux g pt eps i l = some r → r.1 < i + l.length := by
  intro l
  induction l with
  | nil => intro i r h; cases h
  | cons ed rest ih =>
      intro i r h
      rw [point2edgeAux] at h
      by_cases hi : i ∈ g.inactiveEdges
      · rw [if_pos hi] at h
        have := ih (i + 1) r h
        simp only [List.length_cons]
        omega
      · rw [if_neg hi] at h
        cases hcs : closestSegment ed.coords pt with
        | none =>
            rw [hcs] at h
            have := ih (i + 1) r h
            simp only [List.length_cons]
            omega
        | some dr =>
            obtain ⟨d, va⟩ := dr
            rw [hcs] at h
            dsimp only at h
            by_cases hd : d < eps ^ 2
            · rw [if_pos hd] at h
              cases h
              simp only [List.length_cons]
              omega
            · rw [if_neg hd] at h
              have := ih (i + 1) r h
              simp only [List.length_cons]
              omega

lemma point2edge_lt {g : QgsTracerGraph} {pt : QgsPoint} {eps : ℚ}
    {r : Nat × Nat} (h : point2edge g pt eps = some r) : r.1 < g.e.length := by
  have := point2edgeAux_lt g pt eps g.e 0 r h
  simpa using this

lemma replaceFirst_filter (a n c : Nat) (hc : n ≤ c) :
    ∀ l : List Nat, (∀ x ∈ l, x < n) →
      (replaceFirst l a c).filter (fun x => x < n) = l.erase a := by
  intro l
  induction l with
  | nil => intro _; rfl
  | cons x xs ih =>
      intro hb
      by_cases hx : x = a
      · subst hx
        rw [replaceFirst, if_pos rfl]
        rw [List.filter_cons]
        rw [if_neg (by simp; omega)]
        rw [List.filter_eq_self.mpr
          (fun y hy => by simpa using hb y (List.mem_cons_of_mem _ hy))]
        rw [List.erase_cons_head]
      · rw [replaceFirst, if_neg hx]
        rw [List.filter_cons]
        rw [if_pos (by simpa using hb x (by simp))]
        rw [ih (fun y hy => hb y (List.mem_cons_of_mem _ hy))]
        rw [List.erase_cons_tail (by simpa using hx)]

lemma replaceFirst_replaceFirst_filter (a n c1 c2 : Nat) (hc1 : n ≤ c1)
    (hc2 : n ≤ c2) :
    ∀ l : List Nat, (∀ x ∈ l, x < n) →
      (replaceFirst (replaceFirst l a c1) a c2).filter (fun x => x < n)
        = (l.erase a).erase a := by
  intro l
  induction l with
  | nil => intro _; rfl
  | cons x xs ih =>
      intro hb
      by_cases hx : x = a
      · subst hx
        rw [replaceFirst, if_pos rfl]
        have hc1x : ¬ (c1 = x) := by
          have := hb x (by simp)
          omega
        rw [replaceFirst, if_neg hc1x]
        rw [List.filter_cons]
        rw [if_neg (by simp; omega)]
        rw [replaceFirst_filter x n c2 hc2 xs
          (fun y hy => hb y (List.mem_cons_of_mem _ hy))]
        rw [List.erase_cons_head]
      · rw [replaceFirst, if_neg hx, replaceFirst, if_neg hx]
        rw [List.filter_cons]
        rw [if_pos (by simpa using hb x (by simp))]
        rw [ih (fun y hy => hb y (List.mem_cons_of_mem _ hy))]
        rw [List.erase_cons_tail (by simpa using hx),
          List.erase_cons_tail (by simpa using hx)]

lemma erase_append_perm {l : List Nat} {a : Nat} (ha : a ∈ l) :
    (l.erase a ++ [a]).Perm l :=
  (List.perm_append_singleton a (l.erase a)).trans
    (List.perm_cons_erase ha).symm

lemma erase_erase_append_perm {l : List Nat} {a : Nat} (h2 : 2 ≤ l.count a) :
    (((l.erase a).erase a ++ [a]) ++ [a]).Perm l := by
  have ha : a ∈ l := List.count_pos_iff.mp (by omega)
  have ha2 : a ∈ l.erase a := by
    apply List.count_pos_iff.mp
    rw [List.count_erase_self]
    omega
  have s1 : (((l.erase a).erase a ++ [a]) ++ [a]).Perm
      (a :: ((l.erase a).erase a ++ [a])) :=
    List.perm_append_singleton _ _
  have s2 : (a :: ((l.erase a).erase a ++ [a])).Perm
      (a :: (a :: (l.erase a).erase a)) :=
    List.Perm.cons _ (List.perm_append_singleton _ _)
  have s3 : (a :: (a :: (l.erase a).erase a)).Perm (a :: l.erase a) :=
    List.Perm.cons _ (List.perm_cons_erase ha2).symm
  have s4 : (a :: l.erase a).Perm l := (List.perm_cons_erase ha).symm
  exact ((s1.trans s2).trans s3).trans s4

/-- The incidence condition of a well-formed graph for edge `i`: a loop edge
occurs at least twice in its vertex's adjacency list (the builder appends it
once per endpoint), otherwise it occurs in both endpoints' lists. -/
def edgeLinked (G : QgsTracerGraph) (i : Nat) : Prop :=
  if (G.e.getD i default).v1 = (G.e.getD i default).v2 then
    2 ≤ ((G.v.getD (G.e.getD i default).v1 default).edges.count i)
  else
    i ∈ (G.v.getD (G.e.getD i default).v1 default).edges ∧
    i ∈ (G.v.getD (G.e.getD i default).v2 default).edges

instance (G : QgsTracerGraph) (i : Nat) : Decidable (edgeLinked G i) := by
  unfold edgeLinked
  infer_instance

/-- Well-formedness of a cached graph between queries: no pending splices, no
inactive edges, all adjacency entries within the edge bounds, all edge
endpoints within the vertex bounds, and every edge linked into its endpoint
vertices' adjacency lists. All hold for graphs produced by `makeGraph`. -/
def WellFormed (G : QgsTracerGraph) : Prop :=
  G.joinedVertices = 0 ∧ G.inactiveEdges = [] ∧
  (∀ vv ∈ G.v, ∀ ei ∈ vv.edges, ei < G.e.length) ∧
  (∀ ed ∈ G.e, ed.v1 < G.v.length ∧ ed.v2 < G.v.length) ∧
  (∀ i, i < G.e.length → edgeLinked G i)

instance (G : QgsTracerGraph) : Decidable (WellFormed G) := by
  unfold WellFormed
  infer_instance

/-- Truncating away exactly the one spliced vertex and two spliced edges
turns `resetGraph` into the single restoration of the deactivated edge. -/
lemma resetGraph_mk_splice (vv : List V) (ee : List E) (nv : V) (e1 e2 : E)
    (eIdx : Nat) :
    resetGraph ⟨vv ++ [nv], ee ++ [e1, e2], [] ++ [eIdx], 0 + 1⟩ =
      { restoreEdge ⟨vv, ee, [] ++ [eIdx], 0⟩ eIdx with inactiveEdges := [] } := by
  unfold resetGraph
  dsimp only
  rw [show (vv ++ [nv]).length - (0 + 1) = vv.length by simp]
  rw [show (ee ++ [e1, e2]).length - (0 + 1) * 2 = ee.length by simp]
  rw [List.take_left' rfl, List.take_left' rfl]
  rfl

/-- Unfolded form of `restoreEdge` when the edge is within bounds. -/
lemma restoreEdge_of_lt (X : QgsTracerGraph) (eIdx : Nat)
    (h : ¬ (X.e.length ≤ eIdx)) :
    restoreEdge X eIdx =
      mapVertexEdges (mapVertexEdges X (X.e.getD eIdx default).v1
        (fun l => l.filter (fun x => x < X.e.length) ++ [eIdx]))
        (X.e.getD eIdx default).v2
        (fun l => l.filter (fun x => x < X.e.length) ++ [eIdx]) := by
  unfold restoreEdge
  rw [if_neg h]

/-- C2 (corrected): splicing a point into an active edge of a well-formed
graph and reverting restores the vertex count, the edge records, every
vertex's point and every adjacency list as a multiset (`List.Perm`), and
clears the inactive set and the joined-vertex counter. Byte-for-byte order
equality of the adjacency lists does not hold (see the counterexample): the
restored edge index is re-appended at the end. -/
theorem C2_splice_revert_restores (G : QgsTracerGraph) (pt : QgsPoint)
    (G2 : QgsTracerGraph) (vIdx : Nat)
    (hwf : WellFormed G)
    (hj : joinVertexToGraph G pt = (G2, some vIdx)) :
    (resetGraph G2).v.length = G.v.length ∧
    (resetGraph G2).e = G.e ∧
    (∀ i, ((resetGraph G2).v.getD i default).pt = (G.v.getD i default).pt) ∧
    (∀ i, ((resetGraph G2).v.getD i default).edges.Perm (G.v.getD i default).edges) ∧
    (resetGraph G2).inactiveEdges = [] ∧ (resetGraph G2).joinedVertices = 0 := by
  obtain ⟨hjoined, hinact, hbound, hvalid, hlinked⟩ := hwf
  unfold joinVertexToGraph at hj
  cases hpe : point2edge G pt epsilonDefault with
  | none => rw [hpe] at hj; cases hj
  | some r =>
      obtain ⟨eIdx, k⟩ := r
      rw [hpe] at hj
      dsimp only at hj
      injection hj with hG2 hv
      have heLt : eIdx < G.e.length := point2edge_lt hpe
      subst hG2
      have hlk := hlinked eIdx heLt
      unfold edgeLinked at hlk
      have haLt : (G.e.getD eIdx default).v1 < G.v.length :=
        (hvalid _ (getD_mem heLt)).1
      have hbLt : (G.e.getD eIdx default).v2 < G.v.length :=
        (hvalid _ (getD_mem heLt)).2
      generalize ha : (G.e.getD eIdx default).v1 = a at *
      generalize hb : (G.e.getD eIdx default).v2 = b at *
      set gg := mapVertexEdges (mapVertexEdges G a
          (fun l => replaceFirst l eIdx G.e.length)) b
          (fun l => replaceFirst l eIdx (G.e.length + 1)) with hgg
      have hgge : gg.e = G.e := rfl
      have hgginact : gg.inactiveEdges = [] := hinact
      have hggjoined : gg.joinedVertices = 0 := hjoined
      have hggvlen : gg.v.length = G.v.length := by
        rw [hgg, mapVertexEdges_v_length, mapVertexEdges_v_length]
      rw [hgge, hgginact, hggjoined]
      rw [resetGraph_mk_splice]
      have hguard : ¬ ((⟨gg.v, G.e, [] ++ [eIdx], 0⟩ : QgsTracerGraph).e.length ≤ eIdx) := by
        dsimp only
        omega
      rw [restoreEdge_of_lt _ _ hguard]
      dsimp only
      rw [ha, hb]
      have hHlen : ∀ f : List Nat → List Nat, ∀ i : Nat,
          i < G.v.length →
          i < (mapVertexEdges (⟨gg.v, G.e, [] ++ [eIdx], 0⟩ : QgsTracerGraph) a f).v.length := by
        intro f i hi
        rw [mapVertexEdges_v_length]
        show i < gg.v.length
        omega
      have hboundA : ∀ x ∈ (G.v.getD a default).edges, x < G.e.length :=
        hbound _ (getD_mem haLt)
      have hboundB : ∀ x ∈ (G.v.getD b default).edges, x < G.e.length :=
        hbound _ (getD_mem hbLt)
      by_cases hab : a = b
      · -- loop edge: both endpoints are the same vertex
        subst hab
        rw [if_pos rfl] at hlk
        have hggA : gg.v.getD a default =
            ⟨(G.v.getD a default).pt,
              replaceFirst (replaceFirst (G.v.getD a default).edges eIdx
                G.e.length) eIdx (G.e.length + 1)⟩ := by
          rw [hgg]
          rw [mapVertexEdges_getD_self _ _ _ (by rw [mapVertexEdges_v_length]; exact haLt)]
          rw [mapVertexEdges_getD_self _ _ _ haLt]
        have hggO : ∀ i, i ≠ a → gg.v.getD i default = G.v.getD i default := by
          intro i hia
          rw [hgg]
          rw [mapVertexEdges_getD_ne _ _ _ _ (fun h => hia h.symm)]
          rw [mapVertexEdges_getD_ne _ _ _ _ (fun h => hia h.symm)]
        have hreadA : (mapVertexEdges (mapVertexEdges
              (⟨gg.v, G.e, [] ++ [eIdx], 0⟩ : QgsTracerGraph) a
              (fun l => l.filter (fun x => x < G.e.length) ++ [eIdx])) a
              (fun l => l.filter (fun x => x < G.e.length) ++ [eIdx])).v.getD a default =
            ⟨(G.v.getD a default).pt,
              ((((G.v.getD a default).edges.erase eIdx).erase eIdx ++ [eIdx]) ++ [eIdx])⟩ := by
          rw [mapVertexEdges_getD_self _ _ _ (by rw [mapVertexEdges_v_length]; show a < gg.v.length; omega)]
          rw [mapVertexEdges_getD_self _ _ _ (by show a < gg.v.length; omega)]
          show (⟨(gg.v.getD a default).pt, _⟩ : V) = _
          rw [hggA]
          dsimp only
          rw [replaceFirst_replaceFirst_filter eIdx G.e.length G.e.length
            (G.e.length + 1) (Nat.le_refl _) (Nat.le_succ _) _ hboundA]
          have hsub : List.Sublist
              (((G.v.getD a default).edges.erase eIdx).erase eIdx)
              ((G.v.getD a default).edges) :=
            (List.erase_sublist _ _).trans (List.erase_sublist _ _)
          have hfe : List.filter (fun x => decide (x < G.e.length))
              ((((G.v.getD a default).edges.erase eIdx).erase eIdx) ++ [eIdx]) =
              (((G.v.getD a default).edges.erase eIdx).erase eIdx) ++ [eIdx] := by
            apply List.filter_eq_self.mpr
            intro y hy
            rcases List.mem_append.mp hy with hy | hy
            · simpa using hboundA y (hsub.subset hy)
            · have hye : y = eIdx := by simpa using hy
              subst hye
              simpa using heLt
          rw [hfe]
        have hreadO : ∀ i, i ≠ a →
            (mapVertexEdges (mapVertexEdges
              (⟨gg.v, G.e, [] ++ [eIdx], 0⟩ : QgsTracerGraph) a
              (fun l => l.filter (fun x => x < G.e.length) ++ [eIdx])) a
              (fun l => l.filter (fun x => x < G.e.length) ++ [eIdx])).v.getD i default =
            G.v.getD i default := by
          intro i hia
          rw [mapVertexEdges_getD_ne _ _ _ _ (fun h => hia h.symm)]
          rw [mapVertexEdges_getD_ne _ _ _ _ (fun h => hia h.symm)]
          show gg.v.getD i default = _
          exact hggO i hia
        refine ⟨?_, rfl, ?_, ?_, rfl, rfl⟩
        · rw [mapVertexEdges_v_length, mapVertexEdges_v_length]
          exact hggvlen
        · intro i
          by_cases hia : i = a
          · subst hia
            rw [hreadA]
          · rw [hreadO i hia]
        · intro i
          by_cases hia : i = a
          · subst hia
            rw [hreadA]
            exact erase_erase_append_perm hlk
          · rw [hreadO i hia]
      · -- ordinary edge with two distinct endpoints
        rw [if_neg hab] at hlk
        obtain ⟨hmemA, hmemB⟩ := hlk
        have hggA : gg.v.getD a default =
            ⟨(G.v.getD a default).pt,
              replaceFirst (G.v.getD a default).edges eIdx G.e.length⟩ := by
          rw [hgg]
          rw [mapVertexEdges_getD_ne _ _ _ _ (fun h => hab h.symm)]
          rw [mapVertexEdges_getD_self _ _ _ haLt]
        have hggB : gg.v.getD b default =
            ⟨(G.v.getD b default).pt,
              replaceFirst (G.v.getD b default).edges eIdx (G.e.length + 1)⟩ := by
          rw [hgg]
          rw [mapVertexEdges_getD_self _ _ _ (by rw [mapVertexEdges_v_length]; exact hbLt)]
          rw [mapVertexEdges_getD_ne _ _ _ _ hab]
        have hggO : ∀ i, i ≠ a → i ≠ b → gg.v.getD i default = G.v.getD i default := by
          intro i hia hib
          rw [hgg]
          rw [mapVertexEdges_getD_ne _ _ _ _ (fun h => hib h.symm)]
          rw [mapVertexEdges_getD_ne _ _ _ _ (fun h => hia h.symm)]
        have hreadA : (mapVertexEdges (mapVertexEdges
              (⟨gg.v, G.e, [] ++ [eIdx], 0⟩ : QgsTracerGraph) a
              (fun l => l.filter (fun x => x < G.e.length) ++ [eIdx])) b
              (fun l => l.filter (fun x => x < G.e.length) ++ [eIdx])).v.getD a default =
            ⟨(G.v.getD a default).pt, ((G.v.getD a default).edges.erase eIdx ++ [eIdx])⟩ := by
          rw [mapVertexEdges_getD_ne _ _ _ _ (fun h => hab h.symm)]
          rw [mapVertexEdges_getD_self _ _ _ (by show a < gg.v.length; omega)]
          show (⟨(gg.v.getD a default).pt, _⟩ : V) = _
          rw [hggA]
          dsimp only
          rw [replaceFirst_filter eIdx G.e.length G.e.length (Nat.le_refl _) _ hboundA]
        have hreadB : (mapVertexEdges (mapVertexEdges
              (⟨gg.v, G.e, [] ++ [eIdx], 0⟩ : QgsTracerGraph) a
              (fun l => l.filter (fun x => x < G.e.length) ++ [eIdx])) b
              (fun l => l.filter (fun x => x < G.e.length) ++ [eIdx])).v.getD b default =
            ⟨(G.v.getD b default).pt, ((G.v.getD b default).edges.erase eIdx ++ [eIdx])⟩ := by
          rw [mapVertexEdges_getD_self _ _ _ (by rw [mapVertexEdges_v_length]; show b < gg.v.length; omega)]
          rw [mapVertexEdges_getD_ne _ _ _ _ hab]
          show (⟨(gg.v.getD b default).pt, _⟩ : V) = _
          rw [hggB]
          dsimp only
          rw [replaceFirst_filter eIdx G.e.length (G.e.length + 1) (Nat.le_succ _) _ hboundB]
        have hreadO : ∀ i, i ≠ a → i ≠ b →
            (mapVertexEdges (mapVertexEdges
              (⟨gg.v, G.e, [] ++ [eIdx], 0⟩ : QgsTracerGraph) a
              (fun l => l.filter (fun x => x < G.e.length) ++ [eIdx])) b
              (fun l => l.filter (fun x => x < G.e.length) ++ [eIdx])).v.getD i default =
            G.v.getD i default := by
          intro i hia hib
          rw [mapVertexEdges_getD_ne _ _ _ _ (fun h => hib h.symm)]
          rw [mapVertexEdges_getD_ne _ _ _ _ (fun h => hia h.symm)]
          show gg.v.getD i default = _
          exact hggO i hia hib
        refine ⟨?_, rfl, ?_, ?_, rfl, rfl⟩
        · rw [mapVertexEdges_v_length, mapVertexEdges_v_length]
          exact hggvlen
        · intro i
          by_cases hia : i = a
          · subst hia
            rw [hreadA]
          · by_cases hib : i = b
            · subst hib
              rw [hreadB]
            · rw [hreadO i hia hib]
        · intro i
          by_cases hia : i = a
          · subst hia
            rw [hreadA]
            exact erase_append_perm hmemA
          · by_cases hib : i = b
            · subst hib
              rw [hreadB]
              exact erase_append_perm hmemB
            · rw [hreadO i hia hib]


/-- Witness for C2 on the L-graph: splice at the midpoint of edge 0, revert,
and observe counts, edge records and adjacency multisets restored. -/
theorem C2_splice_revert_restores_witness :
    (resetGraph (joinVertexToGraph demoLGraph ⟨5, 0⟩).1).v.length
      = demoLGraph.v.length ∧
    (resetGraph (joinVertexToGraph demoLGraph ⟨5, 0⟩).1).e = demoLGraph.e ∧
    ((resetGraph (joinVertexToGraph demoLGraph ⟨5, 0⟩).1).v.getD 0
      default).edges.Perm ((demoLGraph.v.getD 0 default).edges) ∧
    (resetGraph (joinVertexToGraph demoLGraph ⟨5, 0⟩).1).inactiveEdges = [] := by
  obtain ⟨h1, h2, _h3, h4, h5, _h6⟩ := C2_splice_revert_restores demoLGraph
    ⟨5, 0⟩ (joinVertexToGraph demoLGraph ⟨5, 0⟩).1 3 (by decide) (by decide)
  exact ⟨h1, h2, h4 0, h5⟩

end Tracer
